import Mathlib

/-!
Shallow embedding of the meetings-booking core (NestJS/TypeORM service) in Lean 4.

Timestamps are modelled as `Int` milliseconds since the Unix epoch, in UTC
(the service stores `timestamptz` values and performs all arithmetic on
absolute instants).  JavaScript `Date` calendar operations (`setFullYear`,
`setHours`, month arithmetic) are modelled through a proleptic-Gregorian
civil-calendar conversion.  Fallible JavaScript code (thrown exceptions) is
modelled with `Except`.

Sources embedded:
- `src/booking/services/recurrence.service.ts` (RRULE string parsing, branch
  structure of `parseRRule`, `isInfiniteRecurrence`);
- `src/booking/repositories/booking.repository.ts` (conflict detection,
  booked-slot collection, booking-series creation, cancellation, slot
  recommendation, `isOverlapping`);
- `src/booking/services/booking.service.ts` (`createBooking`,
  `getAvailability`, `calculateAvailableSlots`);
- `src/booking/migrations/0002_add_exclusion_constraints.sql` (the
  `no_overlapping_bookings` range-exclusion constraint).

The expansion performed by the external `rrule` npm library is not part of
the repository sources; it is modelled from the specification (see
`nthOccurrence`, `RRuleLib.all`, `RRuleLib.betweenInc`).
-/

namespace MeetingsBooking

/-- Milliseconds in one hour. -/
def hourMs : Int := 3600000

/-- Milliseconds in one day. -/
def dayMs : Int := 86400000

/-- Milliseconds in one week. -/
def weekMs : Int := 604800000

/-- Day number (days since 1970-01-01) of a UTC timestamp.  `/` on `Int` is
Euclidean division, which agrees with floor division for the positive
divisor used here, matching JavaScript `Date` UTC day extraction. -/
def dayNumber (t : Int) : Int := t / dayMs

/-- Millisecond of the UTC day of a timestamp (`Int.emod` is non-negative). -/
def msOfDay (t : Int) : Int := t % dayMs

/-- JavaScript `date.setHours(0, 0, 0, 0)` in UTC: start of the day. -/
def startOfDayUTC (t : Int) : Int := t - msOfDay t

/-- JavaScript `date.setHours(23, 59, 59, 999)` in UTC: end of the day. -/
def endOfDayUTC (t : Int) : Int := startOfDayUTC t + 86399999

/-- Days since 1970-01-01 of a proleptic-Gregorian civil date (Hinnant's
algorithm).  A day-of-month beyond the month's length extrapolates linearly
into the following month, matching JavaScript `Date` field normalization. -/
def daysFromCivil (y m d : Int) : Int :=
  let yAdj : Int := if m ≤ 2 then y - 1 else y
  let era : Int := yAdj / 400
  let yoe : Int := yAdj - era * 400
  let mp : Int := if 2 < m then m - 3 else m + 9
  let doy : Int := (153 * mp + 2) / 5 + d - 1
  let doe : Int := yoe * 365 + yoe / 4 - yoe / 100 + doy
  era * 146097 + doe - 719468

/-- Civil date (year, month 1..12, day 1..31) of a day number (Hinnant's
algorithm). -/
def civilFromDays (z : Int) : Int × Int × Int :=
  let z' : Int := z + 719468
  let era : Int := z' / 146097
  let doe : Int := z' - era * 146097
  let yoe : Int := (doe - doe / 1460 + doe / 36524 - doe / 146096) / 365
  let y : Int := yoe + era * 400
  let doy : Int := doe - (365 * yoe + yoe / 4 - yoe / 100)
  let mp : Int := (5 * doy + 2) / 153
  let d : Int := doy - (153 * mp + 2) / 5 + 1
  let m : Int := if mp < 10 then mp + 3 else mp - 9
  (y + (if m ≤ 2 then 1 else 0), m, d)

/-- JavaScript `date.setFullYear(date.getFullYear() + n)` (UTC): same civil
month, day and time-of-day, `n` years later, with overflow normalization
(Feb 29 of a leap year maps to Mar 1 of a non-leap target year). -/
def jsAddYears (t n : Int) : Int :=
  let c := civilFromDays (dayNumber t)
  daysFromCivil (c.1 + n) c.2.1 c.2.2 * dayMs + msOfDay t

/-- Calendar month stepping: same day-of-month and time-of-day, `n` months
later, with overflow normalization on short months. -/
def jsAddMonths (t n : Int) : Int :=
  let c := civilFromDays (dayNumber t)
  let months : Int := c.1 * 12 + (c.2.1 - 1) + n
  daysFromCivil (months / 12) (months % 12 + 1) c.2.2 * dayMs + msOfDay t

/-- Error values thrown by the embedded JavaScript code, distinguished the
way the service's `catch` blocks distinguish them (`instanceof` checks).
`jsError` stands for a plain `Error` (including TypeORM query failures
other than the tagged `queryFailedError`). -/
inductive AppError where
  | conflictException : AppError
  | badRequestException : String → AppError
  | queryFailedError : String → AppError
  | jsError : String → AppError
deriving DecidableEq, Repr

deriving instance DecidableEq for Except

/-- Message carried by a thrown error (JavaScript `error.message`). -/
def AppError.message : AppError → String
  | .conflictException => "Conflict"
  | .badRequestException m => m
  | .queryFailedError m => m
  | .jsError m => m

/-- Recurrence frequencies supported by `RecurrenceService.mapFrequency`. -/
inductive Freq where
  | daily | weekly | monthly | yearly
deriving DecidableEq, Repr

/-- Parsed RRULE parameters (`RecurrenceConfig` in the source).  Numeric
fields are `Option (Option Int)`: the outer `none` is JavaScript
`undefined` (key absent), the inner `none` is `NaN` (for `count` and
`interval`, from `parseInt`) or an invalid `Date` (for `until?`). -/
structure RecurrenceConfig where
  freq : Freq := .yearly
  count : Option (Option Int) := none
  interval : Option (Option Int) := none
  until? : Option (Option Int) := none
deriving DecidableEq, Repr

/-- JavaScript truthiness of a possibly-absent number: `undefined`, `NaN`
and `0` are falsy. -/
def jsNumFalsy : Option (Option Int) → Bool
  | none => true
  | some none => true
  | some (some n) => n == 0

/-- ASCII uppercasing of a string, per character (JavaScript `toUpperCase`
on the ASCII data handled here). -/
def jsToUpper (s : String) : String := String.mk (s.data.map Char.toUpper)

/-- Helper of `jsSplit`: split a character list at a separator character,
`acc` holding the current (reversed) segment. -/
def splitCharAux (sep : Char) : List Char → List Char → List (List Char)
  | [], acc => [acc.reverse]
  | c :: cs, acc =>
    if c = sep then acc.reverse :: splitCharAux sep cs []
    else splitCharAux sep cs (c :: acc)

/-- JavaScript `s.split(sep)` for a one-character separator (an empty
string yields `[""]`). -/
def jsSplit (s : String) (sep : Char) : List String :=
  (splitCharAux sep s.data []).map String.mk

/-- Substring containment over character lists (SQL `LIKE '%needle%'`). -/
def hasSubstr (needle : List Char) : List Char → Bool
  | [] => needle.isEmpty
  | c :: cs => needle.isPrefixOf (c :: cs) || hasSubstr needle cs

/-- JavaScript `parseInt(value, 10)`: skip leading whitespace, read an
optional sign and a leading digit run; `NaN` (here `none`) if no digits. -/
def jsParseInt : Option String → Option Int
  | none => none
  | some s =>
    let s1 := s.data.dropWhile (fun c => c == ' ' || c == '\t' || c == '\n' || c == '\r')
    let (neg, rest) :=
      match s1 with
      | '-' :: r => (true, r)
      | '+' :: r => (false, r)
      | r => (false, r)
    let digits := rest.takeWhile Char.isDigit
    if digits.isEmpty then none
    else
      let v : Int := Int.ofNat (digits.foldl (fun a c => a * 10 + (c.toNat - 48)) 0)
      some (if neg then -v else v)

/-- Digit-run value of a character list, `none` unless it is all digits
and non-empty. -/
def digitsValue (l : List Char) : Option Int :=
  if l.all Char.isDigit ∧ l ≠ [] then
    some (Int.ofNat (l.foldl (fun a c => a * 10 + (c.toNat - 48)) 0))
  else none

/-- JavaScript `new Date(value)` for the `UNTIL` field, modelled for
ISO-8601 extended strings `YYYY-MM-DDTHH:MM:SSZ` and `YYYY-MM-DD`; every
other input (including the RFC 5545 basic format the repository's tests
feed it, which V8 rejects) is an invalid date, here `none`.  Only the
presence of the resulting `Date` object ever matters to the verified
claims. -/
def jsParseDate : Option String → Option Int
  | none => none
  | some s =>
    match jsSplit s '-' with
    | [ys, ms, rest] =>
      match jsSplit rest 'T' with
      | [ds] =>
        match digitsValue ys.data, digitsValue ms.data, digitsValue ds.data with
        | some y, some mo, some d => some (daysFromCivil y mo d * dayMs)
        | _, _, _ => none
      | [ds, time] =>
        match jsSplit time ':' with
        | [hs, mins, secz] =>
          match secz.data.getLast? with
          | some 'Z' =>
            match digitsValue ys.data, digitsValue ms.data, digitsValue ds.data,
                digitsValue hs.data, digitsValue mins.data, digitsValue secz.data.dropLast with
            | some y, some mo, some d, some h, some mi, some sec =>
              some (daysFromCivil y mo d * dayMs + h * hourMs + mi * 60000 + sec * 1000)
            | _, _, _, _, _, _ => none
          | _ => none
        | _ => none
      | _ => none
    | _ => none

/-- RecurrenceService.mapFrequency: uppercase the value and map it to a
frequency; unsupported values throw.  A `FREQ` key with no `=` value makes
JavaScript call `toUpperCase` on `undefined`, a `TypeError`. -/
def mapFrequency : Option String → Except AppError Freq
  | none => .error (.jsError "Cannot read properties of undefined (reading 'toUpperCase')")
  | some f =>
    match jsToUpper f with
    | "DAILY" => .ok .daily
    | "WEEKLY" => .ok .weekly
    | "MONTHLY" => .ok .monthly
    | "YEARLY" => .ok .yearly
    | _ => .error (.jsError ("Unsupported frequency: " ++ f))

/-- Loop body of `RecurrenceService.parseRRuleParams`: split each `;` part
at `=`, uppercase the key, and record FREQ/COUNT/INTERVAL/UNTIL.  The
second component carries the `freqFound` flag. -/
def parseParamsLoop : List String → RecurrenceConfig × Bool → Except AppError (RecurrenceConfig × Bool)
  | [], st => .ok st
  | part :: rest, (cfg, freqFound) =>
    let kv := jsSplit part '='
    let key := kv.headD ""
    let value := kv[1]?
    match jsToUpper key with
    | "FREQ" => do
      let f ← mapFrequency value
      parseParamsLoop rest ({ cfg with freq := f }, true)
    | "COUNT" => parseParamsLoop rest ({ cfg with count := some (jsParseInt value) }, freqFound)
    | "INTERVAL" => parseParamsLoop rest ({ cfg with interval := some (jsParseInt value) }, freqFound)
    | "UNTIL" => parseParamsLoop rest ({ cfg with until? := some (jsParseDate value) }, freqFound)
    | _ => parseParamsLoop rest (cfg, freqFound)

/-- RecurrenceService.parseRRuleParams: parse the `;`-separated parameter
list, requiring a `FREQ` key. -/
def parseRRuleParams (ruleStr : String) : Except AppError RecurrenceConfig := do
  let (cfg, freqFound) ← parseParamsLoop (jsSplit ruleStr ';') ({}, false)
  if freqFound then pure cfg
  else .error (.jsError "FREQ parameter is required in RRULE")

/-- JavaScript `rruleString.replace(/^RRULE:/i, '')`: strip one leading
case-insensitive `RRULE:` prefix. -/
def stripRRulePrefix (s : String) : String :=
  if jsToUpper (String.mk (s.data.take 6)) = "RRULE:" then String.mk (s.data.drop 6) else s

/-- Effective interval of the options object handed to the `rrule` library:
the service sets `options.interval` only when the parsed value is truthy
(present, non-`NaN`, non-zero); the library default is `1`. -/
def effInterval (x : Option (Option Int)) : Int :=
  match x with
  | some (some i) => if i == 0 then 1 else i
  | _ => 1

/-- Modelled from the spec: occurrence number `k` of a recurrence expansion
performed by the external `rrule` library (not part of the repository
sources).  Occurrence 0 is the template start; occurrence `k` is the
template stepped `k × interval` frequency units, daily/weekly stepping
being exact day/week multiples and monthly/yearly stepping preserving the
template's civil day-of-month (normalizing overflow on short months, a
policy the spec leaves open). -/
def nthOccurrence (f : Freq) (interval dtstart : Int) : Nat → Int
  | 0 => dtstart
  | Nat.succ k =>
    match f with
    | .daily => dtstart + interval * dayMs * ((k : Int) + 1)
    | .weekly => dtstart + interval * weekMs * ((k : Int) + 1)
    | .monthly => jsAddMonths dtstart (interval * ((k : Int) + 1))
    | .yearly => jsAddYears dtstart (interval * ((k : Int) + 1))

/-- Modelled from the spec: the occurrences of an unbounded rule lying in
the inclusive window `[lo, hi]` (`rrule.between(lo, hi, true)` with
`dtstart ≤ hi`).  For the uniform daily/weekly steps the occurrences not
beyond `hi` are exactly the first `(hi - dtstart) / step + 1` ones; for
calendar steps a day-granularity generation bound is filtered instead. -/
def occurrencesInWindow (f : Freq) (interval dtstart lo hi : Int) : List Int :=
  if hi < dtstart ∨ interval ≤ 0 then []
  else
    match f with
    | .daily =>
      (((List.range (((hi - dtstart) / (interval * dayMs)).toNat + 1)).map
        (nthOccurrence f interval dtstart)).filter (fun t => decide (lo ≤ t)))
    | .weekly =>
      (((List.range (((hi - dtstart) / (interval * weekMs)).toNat + 1)).map
        (nthOccurrence f interval dtstart)).filter (fun t => decide (lo ≤ t)))
    | .monthly | .yearly =>
      (((List.range (((hi - dtstart) / dayMs).toNat + 2)).map
        (nthOccurrence f interval dtstart)).filter (fun t => decide (lo ≤ t ∧ t ≤ hi)))

namespace RRuleLib

/-- Modelled from the spec: `new RRule(options).all()`.  A present positive
count produces exactly `count` occurrences stepped from the template,
regardless of any `until` value; `count = 0` (and the unreachable
`NaN`/non-positive configurations, modelled as empty) produces no
occurrences. -/
def all (f : Freq) (count until? : Option (Option Int)) (interval dtstart : Int) : List Int :=
  match count with
  | some (some n) =>
    if n ≤ 0 ∨ interval ≤ 0 then []
    else (List.range n.toNat).map (nthOccurrence f interval dtstart)
  | some none => []
  | none =>
    match until? with
    | some (some u) => occurrencesInWindow f interval dtstart dtstart u
    | _ => []

/-- Modelled from the spec: `new RRule(options).between(lo, hi, true)`.
The `rrule` iterator returns no occurrence at all when `count` is `0`. -/
def betweenInc (f : Freq) (count : Option (Option Int)) (interval dtstart lo hi : Int) : List Int :=
  match count with
  | some (some n) =>
    if n ≤ 0 ∨ interval ≤ 0 then []
    else ((List.range n.toNat).map (nthOccurrence f interval dtstart)).filter
      (fun t => decide (lo ≤ t ∧ t ≤ hi))
  | some none => []
  | none => occurrencesInWindow f interval dtstart lo hi

end RRuleLib

/-- RecurrenceService.parseRRule: strip the `RRULE:` prefix, parse the
parameters, build the `rrule` options (`count` whenever the key was
present, `until` whenever the `Date` object exists, `interval` only when
truthy), and either expand up to a two-year horizon from now (when both
`count` and `until` are JavaScript-falsy) or expand the full rule.  Any
error is caught and rethrown as `Invalid RRULE format: ...`. -/
def parseRRule (rruleString : String) (startDate _endDate now : Int) : Except AppError (List Int) :=
  let body : Except AppError (List Int) := do
    let ruleStr := stripRRulePrefix rruleString
    let params ← parseRRuleParams ruleStr
    let interval := effInterval params.interval
    if jsNumFalsy params.count ∧ params.until? = none then
      let twoYearsFromNow := jsAddYears now 2
      pure (RRuleLib.betweenInc params.freq params.count interval startDate startDate twoYearsFromNow)
    else
      pure (RRuleLib.all params.freq params.count params.until? interval startDate)
  match body with
  | .ok l => .ok l
  | .error e => .error (.jsError ("Invalid RRULE format: " ++ e.message))

/-- RecurrenceService.isInfiniteRecurrence: true when no `;`-part of the
rule starts (case-insensitively) with `COUNT=` or `UNTIL=`. -/
def isInfiniteRecurrence (rruleString : String) : Bool :=
  let ruleStr := stripRRulePrefix rruleString
  let parts := jsSplit ruleStr ';'
  let hasCount := parts.any (fun p => "COUNT=".data.isPrefixOf (jsToUpper p).data)
  let hasUntil := parts.any (fun p => "UNTIL=".data.isPrefixOf (jsToUpper p).data)
  !hasCount && !hasUntil

/-- Row of the `booking_series` table. -/
structure BookingSeriesRow where
  id : String
  resource_id : String
  start_time : Int
  end_time : Int
  recurrence_rule : Option String := none
deriving DecidableEq, Repr

/-- Row of the `booking_instance` table. -/
structure BookingInstanceRow where
  id : String
  series_id : Option String := none
  resource_id : String
  start_time : Int
  end_time : Int
  is_exception : Bool := false
deriving DecidableEq, Repr

/-- Database state: the two booking tables, rows in insertion order. -/
structure Store where
  seriesRows : List BookingSeriesRow := []
  instanceRows : List BookingInstanceRow := []
deriving DecidableEq, Repr

/-- The `TimeSlot` interface of the repository (`end` is a Lean keyword, so
the field is `end_`). -/
structure TimeSlot where
  start : Int
  end_ : Int
deriving DecidableEq, Repr

/-- The `ConflictInfo` interface of the repository. -/
structure ConflictInfo where
  id : String
  start_time : Int
  end_time : Int
  series_id : Option String := none
deriving DecidableEq, Repr

/-- BookingRepository.isOverlapping: half-open interval overlap
(`start1 < end2 && start2 < end1`). -/
def isOverlapping (start1 end1 start2 end2 : Int) : Bool :=
  decide (start1 < end2) && decide (start2 < end1)

/-- SQL `LIKE '%needle%'` containment test (case-sensitive). -/
def likeContains (hay needle : String) : Bool := hasSubstr needle.data hay.data

/-- Filter used by the repository's infinite-series queries:
`recurrence_rule IS NOT NULL AND recurrence_rule NOT LIKE '%COUNT%' AND
recurrence_rule NOT LIKE '%UNTIL%'`. -/
def isInfiniteSeriesRow (sr : BookingSeriesRow) : Bool :=
  match sr.recurrence_rule with
  | none => false
  | some r => !likeContains r "COUNT" && !likeContains r "UNTIL"

/-- JavaScript truthiness of an optional string (an absent or empty
recurrence rule is falsy). -/
def jsStrTruthy : Option String → Bool
  | none => false
  | some s => s != ""

/-- Normalize a possibly-falsy rule to an `Option` that is `some` exactly
for truthy values. -/
def truthyRule (rule : Option String) : Option String :=
  match rule with
  | some r => if r != "" then some r else none
  | none => none

/-- BookingRepository.isInstanceException: does an exception row of the
series exist whose `start_time` lies within the same calendar day
(TypeORM `Between` is inclusive at both ends)? -/
def isInstanceException (st : Store) (seriesId : String) (instanceStartTime : Int) : Bool :=
  st.instanceRows.any (fun i => decide
    (i.series_id = some seriesId ∧
     startOfDayUTC instanceStartTime ≤ i.start_time ∧
     i.start_time ≤ endOfDayUTC instanceStartTime ∧
     i.is_exception = true))

/-- BookingRepository.generateRecurringInstances: one slot for a
non-recurring series whose start lies in `[startDate, endDate)`, else the
expanded occurrences (of the template duration) whose start lies in the
range.  The unguarded `parseRRule` call can throw. -/
def generateRecurringInstances (series : BookingSeriesRow) (startDate endDate now : Int) :
    Except AppError (List TimeSlot) :=
  match series.recurrence_rule with
  | none =>
    if series.start_time ≥ startDate ∧ series.start_time < endDate then
      .ok [⟨series.start_time, series.end_time⟩]
    else .ok []
  | some r => do
    let duration := series.end_time - series.start_time
    let occurrences ← parseRRule r series.start_time series.end_time now
    pure ((occurrences.filter (fun o => decide (o ≥ startDate ∧ o < endDate))).map
      (fun o => ⟨o, o + duration⟩))

/-- BookingRepository.findConflictsForTimeRange: materialized non-exception
instances of the resource overlapping the window (half-open, via the SQL
`start_time < :endTime AND end_time > :startTime` predicate), plus the
non-excepted occurrences of every infinite series of the resource,
generated over the window padded by seven days on each side and tested
with `isOverlapping` against the exact window. -/
def findConflictsForTimeRange (st : Store) (now : Int) (resourceId : String) (startTime endTime : Int) :
    Except AppError (List ConflictInfo) := do
  let instanceConflicts := st.instanceRows.filter (fun i => decide
    (i.resource_id = resourceId ∧ i.is_exception = false ∧
     i.start_time < endTime ∧ i.end_time > startTime))
  let conflicts := instanceConflicts.map
    (fun i => ConflictInfo.mk i.id i.start_time i.end_time i.series_id)
  let infiniteSeries := st.seriesRows.filter
    (fun sr => decide (sr.resource_id = resourceId) && isInfiniteSeriesRow sr)
  let extendedStart := startTime - 7 * dayMs
  let extendedEnd := endTime + 7 * dayMs
  let seriesConflicts ← infiniteSeries.mapM (fun sr => do
    let generated ← generateRecurringInstances sr extendedStart extendedEnd now
    pure ((generated.filter (fun inst =>
        !isInstanceException st sr.id inst.start &&
        isOverlapping inst.start inst.end_ startTime endTime)).map
      (fun inst => ConflictInfo.mk sr.id inst.start inst.end_ (some sr.id))))
  pure (conflicts ++ seriesConflicts.flatten)

/-- Deduplication through a JavaScript `Map` built from keyed entries: keys
keep their first-insertion position, later same-key entries overwrite the
value. -/
def jsMapDedupe {α β : Type} [DecidableEq β] (key : α → β) (l : List α) : List α :=
  ((l.map key).dedup).filterMap (fun k => l.reverse.find? (fun x => decide (key x = k)))

/-- Stable insertion into an ascending list: the new element goes after
every element not greater than it. -/
def stableInsert {α : Type} (le : α → α → Bool) (x : α) : List α → List α
  | [] => [x]
  | y :: ys => if le y x then y :: stableInsert le x ys else x :: y :: ys

/-- Stable ascending sort (JavaScript `Array.prototype.sort` with a
numeric comparator; also SQL `ORDER BY ... ASC`). -/
def stableSortBy {α : Type} (le : α → α → Bool) (l : List α) : List α :=
  l.foldl (fun acc x => stableInsert le x acc) []

/-- BookingRepository.findConflicts: conflicts of the single window, or of
every expanded occurrence window of the rule, deduplicated by
id/start/end. -/
def findConflicts (st : Store) (now : Int) (resourceId : String) (startTime endTime : Int)
    (recurrenceRule : Option String) : Except AppError (List ConflictInfo) := do
  let conflicts ←
    match truthyRule recurrenceRule with
    | some r => do
      let duration := endTime - startTime
      let occurrences ← parseRRule r startTime endTime now
      let lists ← occurrences.mapM
        (fun o => findConflictsForTimeRange st now resourceId o (o + duration))
      pure lists.flatten
    | none => findConflictsForTimeRange st now resourceId startTime endTime
  pure (jsMapDedupe (fun c => (c.id, c.start_time, c.end_time)) conflicts)

/-- BookingRepository.findBookedSlots: materialized busy slots of the
resource overlapping the range (ordered by `start_time`), plus the
non-excepted occurrences of every infinite series generated over the exact
range; the union is sorted by start and deduplicated by (start, end). -/
def findBookedSlots (st : Store) (now : Int) (resourceId : String) (startDate endDate : Int) :
    Except AppError (List TimeSlot) := do
  let instances := stableSortBy (fun a b => decide (a.start_time ≤ b.start_time))
    (st.instanceRows.filter (fun i => decide
      (i.resource_id = resourceId ∧ i.is_exception = false ∧
       i.start_time < endDate ∧ i.end_time > startDate)))
  let materialized := instances.map (fun i => TimeSlot.mk i.start_time i.end_time)
  let infiniteSeries := st.seriesRows.filter
    (fun sr => decide (sr.resource_id = resourceId) && isInfiniteSeriesRow sr)
  let generatedLists ← infiniteSeries.mapM (fun sr => do
    let generated ← generateRecurringInstances sr startDate endDate now
    pure (generated.filter (fun inst => !isInstanceException st sr.id inst.start)))
  let bookedSlots := stableSortBy (fun a b => decide (a.start ≤ b.start))
    (materialized ++ generatedLists.flatten)
  pure (jsMapDedupe (fun s => (s.start, s.end_)) bookedSlots)

/-- Range overlap of two `tstzrange(start, end, '[]')` values as used by
the `no_overlapping_bookings` exclusion constraint of migration 0002: the
bounds are inclusive at both ends, so the closed ranges intersect iff
`start1 ≤ end2 ∧ start2 ≤ end1` (for the well-formed rows the service
writes, with `start ≤ end`). -/
def rangesAdjOverlap (start1 end1 start2 end2 : Int) : Bool :=
  decide (start1 ≤ end2) && decide (start2 ≤ end1)

/-- Violation test of the `no_overlapping_bookings` exclusion constraint
for one inserted row against the rows already present: same `resource_id`,
both rows non-exception, and closed time ranges intersecting. -/
def rowViolatesExclusion (present : List BookingInstanceRow) (r : BookingInstanceRow) : Bool :=
  present.any (fun j =>
    decide (j.resource_id = r.resource_id) && !j.is_exception && !r.is_exception &&
    rangesAdjOverlap j.start_time j.end_time r.start_time r.end_time)

/-- Whether inserting the given rows (in order, each checked against the
existing rows and the ones inserted before it) violates the exclusion
constraint. -/
def insertViolatesExclusion : List BookingInstanceRow → List BookingInstanceRow → Bool
  | _, [] => false
  | present, r :: rest =>
    rowViolatesExclusion present r || insertViolatesExclusion (present ++ [r]) rest

/-- Error message of a PostgreSQL exclusion-constraint violation
(`QueryFailedError` raised at commit of the insert). -/
def exclusionViolationMsg : String :=
  "conflicting key value violates exclusion constraint no_overlapping_bookings"

/-- BookingRepository.createBookingSeries: inside one transaction, insert
the series row; for a truthy finite rule materialize one instance per
expanded occurrence, for no rule materialize the single template instance,
for an infinite rule materialize nothing; commit.  A storage-level
exclusion-constraint violation (or an expansion error) aborts and rolls
the transaction back, rethrowing the raw error.  `newSeriesId` and `idGen`
model the database-generated UUIDs. -/
def createBookingSeries (st : Store) (now : Int) (newSeriesId : String) (idGen : Nat → String)
    (resourceId : String) (startTime endTime : Int) (recurrenceRule : Option String) :
    Except AppError (Store × BookingSeriesRow × List BookingInstanceRow) := do
  let series : BookingSeriesRow :=
    ⟨newSeriesId, resourceId, startTime, endTime, truthyRule recurrenceRule⟩
  let instances ←
    match truthyRule recurrenceRule with
    | some r =>
      if !isInfiniteRecurrence r then do
        let duration := endTime - startTime
        let occurrences ← parseRRule r startTime endTime now
        pure (occurrences.enum.map (fun p =>
          BookingInstanceRow.mk (idGen p.1) (some newSeriesId) resourceId p.2 (p.2 + duration) false))
      else pure []
    | none =>
      pure [BookingInstanceRow.mk (idGen 0) (some newSeriesId) resourceId startTime endTime false]
  if insertViolatesExclusion st.instanceRows instances then
    .error (.queryFailedError exclusionViolationMsg)
  else
    .ok (⟨st.seriesRows ++ [series], st.instanceRows ++ instances⟩, series, instances)

/-- Lookup used by BookingRepository.cancelException: the first
materialized non-exception instance of the series whose `start_time` falls
within the calendar day of `instanceDate`. -/
def findNonExceptionOnDay (st : Store) (seriesId : String) (instanceDate : Int) :
    Option BookingInstanceRow :=
  st.instanceRows.find? (fun i => decide
    (i.series_id = some seriesId ∧
     startOfDayUTC instanceDate ≤ i.start_time ∧
     i.start_time ≤ endOfDayUTC instanceDate ∧
     i.is_exception = false))

/-- Start instant synthesized by BookingRepository.cancelException for a
virtual occurrence: the calendar day of `instanceDate` with the series
template's hours, minutes and seconds (milliseconds zeroed). -/
def synthesizedStart (instanceDate seriesStart : Int) : Int :=
  startOfDayUTC instanceDate + (msOfDay seriesStart / 1000) * 1000

/-- BookingRepository.cancelException: fail if the series does not exist;
flip the first materialized non-exception instance of that calendar day in
place; otherwise synthesize a new instance for that date (template
time-of-day and duration) with `is_exception` true from creation.
`newId` models the database-generated UUID of the synthesized row. -/
def cancelException (st : Store) (newId : String) (seriesId : String) (instanceDate : Int) :
    Except AppError (Store × BookingInstanceRow) :=
  match st.seriesRows.find? (fun s => decide (s.id = seriesId)) with
  | none => .error (.jsError "Recurring booking series not found")
  | some series =>
    match findNonExceptionOnDay st seriesId instanceDate with
    | some existing =>
      let updated := { existing with is_exception := true }
      .ok (⟨st.seriesRows,
            st.instanceRows.map (fun i => if i.id = existing.id then updated else i)⟩,
           updated)
    | none =>
      let duration := series.end_time - series.start_time
      let instanceStart := synthesizedStart instanceDate series.start_time
      let exc : BookingInstanceRow :=
        ⟨newId, some seriesId, series.resource_id, instanceStart, instanceStart + duration, true⟩
      .ok (⟨st.seriesRows, st.instanceRows ++ [exc]⟩, exc)

/-- Accumulating loop of the recurring branch of
BookingRepository.findNextAvailableSlots: accept each conflict-free
occurrence window until `maxSlots` are collected; an error thrown inside
the loop is swallowed by the surrounding `catch`, which returns the slots
accumulated so far. -/
def collectRecurringSlots (st : Store) (now : Int) (resourceId : String) (duration : Int)
    (maxSlots : Nat) : List Int → List TimeSlot → List TimeSlot
  | [], acc => acc
  | o :: rest, acc =>
    if maxSlots ≤ acc.length then acc
    else
      match findConflictsForTimeRange st now resourceId o (o + duration) with
      | .error _ => acc
      | .ok conflicts =>
        if conflicts.isEmpty then
          collectRecurringSlots st now resourceId duration maxSlots rest (acc ++ [⟨o, o + duration⟩])
        else
          collectRecurringSlots st now resourceId duration maxSlots rest acc

/-- Hour-stepping loop of the single branch of
BookingRepository.findNextAvailableSlots: while the candidate start is
before the search end and fewer than `maxSlots` slots were found, accept
the first conflict-free window `[t, t + duration)` and stop, else advance
one hour.  Errors of the conflict query propagate (no `catch` here).
The structural `fuel` only bounds the recursion; `searchSingleFuel` below
supplies strictly more fuel than the guard ever admits iterations, so the
fuel-exhausted branch coincides with the loop's normal exit. -/
def searchSingleSlot (st : Store) (now : Int) (resourceId : String) (searchEnd duration : Int)
    (maxSlots : Nat) : Nat → Int → Except AppError (List TimeSlot)
  | 0, _ => pure []
  | fuel + 1, t =>
    if t < searchEnd ∧ 0 < maxSlots then do
      let conflicts ← findConflictsForTimeRange st now resourceId t (t + duration)
      if conflicts.isEmpty then pure [⟨t, t + duration⟩]
      else searchSingleSlot st now resourceId searchEnd duration maxSlots fuel (t + hourMs)
    else pure []

/-- Fuel that strictly dominates the number of hour steps from `t` to
`searchEnd`. -/
def searchSingleFuel (searchEnd t : Int) : Nat := ((searchEnd - t).toNat / 3600000) + 2

/-- BookingRepository.findNextAvailableSlots: search end is 90 days from
now, effective start is `max(startTime, now)`.  With a truthy rule the
expanded occurrences are tested in order (a parse failure is swallowed,
leaving the empty slot list); without one the hour-stepping search runs up
to the horizon. -/
def findNextAvailableSlots (st : Store) (now : Int) (resourceId : String) (startTime duration : Int)
    (recurrenceRule : Option String) (maxSlots : Nat) : Except AppError (List TimeSlot) :=
  let searchEndDate := now + 90 * dayMs
  let currentTime := max startTime now
  match truthyRule recurrenceRule with
  | some r =>
    match parseRRule r currentTime (currentTime + duration) now with
    | .ok occurrences => .ok (collectRecurringSlots st now resourceId duration maxSlots occurrences [])
    | .error _ => .ok []
  | none => searchSingleSlot st now resourceId searchEndDate duration maxSlots
      (searchSingleFuel searchEndDate currentTime) currentTime

/-- Creation request body (`CreateBookingDto`); the ISO time strings of the
HTTP layer are modelled as the instants they denote. -/
structure CreateBookingDto where
  resource_id : String
  start_time : Int
  end_time : Int
  recurrence_rule : Option String := none
deriving DecidableEq, Repr

/-- Non-throwing outcome of BookingService.createBooking: either the
created-booking response (`has_conflict` false) or the conflict response
(`has_conflict` true, with the conflicting bookings and the recommended
alternative slots). -/
inductive CreateOutcome where
  | created (booking_id resource_id : String) (start_time end_time : Int)
      (recurrence_rule : Option String) (message : String) : CreateOutcome
  | conflictResult (conflicts : List ConflictInfo) (next_available_slots : List TimeSlot)
      (message : String) : CreateOutcome
deriving DecidableEq, Repr

/-- BookingService.createBooking: validate the window and the rule, then
attempt the transactional creation.  A thrown `ConflictException` is
converted into the conflict outcome (with recommended slots and the
conflicting bookings); a thrown `BadRequestException` is rethrown; any
other error is rethrown as `BadRequestException('Failed to create
booking: ...')`.  The returned store is the post-transaction state. -/
def createBooking (st : Store) (now : Int) (newSeriesId : String) (idGen : Nat → String)
    (dto : CreateBookingDto) : Except AppError (Store × CreateOutcome) := do
  let startTime := dto.start_time
  let endTime := dto.end_time
  if startTime ≥ endTime then
    .error (.badRequestException "start_time must be before end_time")
  else if startTime < now then
    .error (.badRequestException "Cannot book meetings in the past")
  else do
    match truthyRule dto.recurrence_rule with
    | some r =>
      match parseRRule r startTime endTime now with
      | .ok occurrences =>
        if occurrences.isEmpty then
          .error (.badRequestException "RRULE generated no occurrences")
        else pure ()
      | .error e =>
        match e with
        | .badRequestException m => .error (.badRequestException m)
        | e => .error (.badRequestException ("Invalid recurrence rule: " ++ e.message))
    | none => pure ()
    match createBookingSeries st now newSeriesId idGen dto.resource_id startTime endTime
        dto.recurrence_rule with
    | .ok (st', series, instances) =>
      let isInfinite := jsStrTruthy dto.recurrence_rule &&
        isInfiniteRecurrence ((dto.recurrence_rule).getD "")
      let message :=
        if isInfinite then "Recurring booking created (infinite recurrence)"
        else if instances.length = 1 then "Booking created successfully"
        else "Recurring booking created with " ++ toString instances.length ++ " occurrences"
      pure (st', .created series.id dto.resource_id startTime endTime dto.recurrence_rule message)
    | .error e =>
      match e with
      | .conflictException => do
        let duration := endTime - startTime
        let nextSlots ← findNextAvailableSlots st now dto.resource_id startTime duration
          dto.recurrence_rule 5
        let conflicts ← findConflicts st now dto.resource_id startTime endTime dto.recurrence_rule
        pure (st, .conflictResult conflicts nextSlots "Booking conflicts with existing meetings")
      | .badRequestException m => .error (.badRequestException m)
      | e => .error (.badRequestException ("Failed to create booking: " ++ e.message))

/-- Availability response of BookingService.getAvailability. -/
structure AvailabilityResult where
  resource_id : String
  start_date : Int
  end_date : Int
  available_slots : List TimeSlot
deriving DecidableEq, Repr

/-- BookingService.calculateAvailableSlots: with no busy slot the whole
range is free; otherwise emit the gap before the first busy slot, the
positive gaps between consecutive busy slots, and the gap after the last
one. -/
def calculateAvailableSlots (startDate endDate : Int) (bookedSlots : List TimeSlot) :
    List TimeSlot :=
  match bookedSlots with
  | [] => [⟨startDate, endDate⟩]
  | b0 :: rest =>
    let lead := if b0.start > startDate then [TimeSlot.mk startDate b0.start] else []
    let mids := ((b0 :: rest).zip rest).filterMap (fun p =>
      if p.2.start > p.1.end_ then some (TimeSlot.mk p.1.end_ p.2.start) else none)
    let lastBooking := (b0 :: rest).getLast (by simp)
    let trail := if lastBooking.end_ < endDate then [TimeSlot.mk lastBooking.end_ endDate] else []
    lead ++ mids ++ trail

/-- BookingService.getAvailability: reject an empty or inverted range with
a `BadRequestException`, else compute the free gaps of the booked slots
within the range. -/
def getAvailability (st : Store) (now : Int) (resourceId : String) (startDate endDate : Int) :
    Except AppError AvailabilityResult := do
  if startDate ≥ endDate then
    .error (.badRequestException "start_date must be before end_date")
  else do
    let bookedSlots ← findBookedSlots st now resourceId startDate endDate
    pure ⟨resourceId, startDate, endDate, calculateAvailableSlots startDate endDate bookedSlots⟩

/-! Concrete instants and stores used by the claim witnesses and
counterexamples.  `t0900` is 2025-01-06T09:00:00Z, the Monday-morning
template instant pinned by the repository's own test-suite. -/

/-- 2025-01-06T09:00:00Z in Unix milliseconds. -/
def t0900 : Int := 1736154000000

/-- 2025-01-06T09:30:00Z. -/
def t0930 : Int := t0900 + 1800000

/-- 2025-01-06T10:00:00Z. -/
def t1000 : Int := t0900 + 3600000

/-- 2025-01-06T10:30:00Z. -/
def t1030 : Int := t1000 + 1800000

/-- 2025-01-06T08:00:00Z (used as the current instant `now`). -/
def t0800 : Int := t0900 - 3600000

/-- Deterministic stand-in for the database-generated instance UUIDs. -/
def mkIds (tag : String) : Nat → String := fun k => tag ++ toString k

/-- Store holding one accepted single booking 09:00–10:00 on resource
`R1` (series `S1`, instance `I1`). -/
def storeOneBooking : Store :=
  ⟨[⟨"S1", "R1", t0900, t1000, none⟩], [⟨"I1", some "S1", "R1", t0900, t1000, false⟩]⟩

/-- Store with no bookings at all. -/
def emptyStore : Store := ⟨[], []⟩

/-- Claim C3: the overlap test used by conflict detection is exactly the
half-open test `aStart < bEnd ∧ bStart < aEnd`; touching intervals (one
ending exactly when the other starts, in either order) never overlap; the
9:00–10:00 vs 9:30–10:30 pair overlaps and the 9:00–10:00 vs 10:00–11:00
pair does not. -/
theorem isOverlapping_halfOpen_iff :
    (∀ aStart aEnd bStart bEnd : Int,
      isOverlapping aStart aEnd bStart bEnd = true ↔ aStart < bEnd ∧ bStart < aEnd)
    ∧ (∀ aStart aEnd bEnd : Int, isOverlapping aStart aEnd aEnd bEnd = false)
    ∧ (∀ aStart aEnd bStart : Int, isOverlapping aStart aEnd bStart aStart = false)
    ∧ isOverlapping t0900 t1000 t0930 t1030 = true
    ∧ isOverlapping t0900 t1000 t1000 (t1000 + 3600000) = false := by
  refine ⟨?_, ?_, ?_, by decide, by decide⟩
  · intro aStart aEnd bStart bEnd
    simp [isOverlapping]
  · intro aStart aEnd bEnd
    simp [isOverlapping]
  · intro aStart aEnd bStart
    simp [isOverlapping]

/-- Claim C10 (code bug): the storage-layer exclusion constraint of
migration 0002 builds `tstzrange(start_time, end_time, '[]')` with
closed-closed bounds, so two same-resource non-exception rows that merely
touch (9:00–10:00 and 10:00–11:00) violate the constraint even though the
application's half-open `isOverlapping` (and the spec's `[start, end)`
semantics) treat them as non-overlapping: the two relations disagree. -/
theorem exclusionConstraint_rejects_touching_rows :
    rangesAdjOverlap t0900 t1000 t1000 (t1000 + 3600000) = true
    ∧ isOverlapping t0900 t1000 t1000 (t1000 + 3600000) = false
    ∧ insertViolatesExclusion
        [⟨"I1", some "S1", "R1", t0900, t1000, false⟩]
        [⟨"I2", some "S2", "R1", t1000, t1000 + 3600000, false⟩] = true := by
  decide

/-- Claim C1 (code bug): a creation request whose window overlaps an
existing accepted booking does NOT produce a `ConflictOutcome`.  No code
path of the repository throws `ConflictException` (`createBookingSeries`
runs no conflict check), so the service's `has_conflict` branch is
unreachable: the request 09:30–10:30 against the accepted 09:00–10:00
booking aborts on the storage exclusion constraint and surfaces as the
fatal `BadRequestException('Failed to create booking: ...')`, leaving the
store unchanged rather than returning a conflict result. -/
theorem createBooking_overlap_surfaces_fatal_error :
    createBooking storeOneBooking t0800 "S2" (mkIds "b") ⟨"R1", t0930, t1030, none⟩
      = .error (.badRequestException ("Failed to create booking: " ++ exclusionViolationMsg)) := by
  decide

/-- Claim C2 (code bug): when the transactional commit fails with the
storage-level exclusion violation (`queryFailedError`, the race loser's
outcome for a duplicate 09:00–10:00 window), `createBooking` does not
convert it into the `has_conflict` result: the raw `QueryFailedError` is
not a `ConflictException`, so the service rethrows it as the fatal
`BadRequestException('Failed to create booking: ...')`. -/
theorem createBooking_exclusionViolation_not_converted :
    createBookingSeries storeOneBooking t0800 "S2" (mkIds "b") "R1" t0900 t1000 none
      = .error (.queryFailedError exclusionViolationMsg)
    ∧ createBooking storeOneBooking t0800 "S2" (mkIds "b") ⟨"R1", t0900, t1000, none⟩
      = .error (.badRequestException ("Failed to create booking: " ++ exclusionViolationMsg)) := by
  constructor
  · decide
  · decide

/-- Claim C7 (code bug): two identical creation requests for the same
resource and window, executed under the serialization the storage layer
enforces (first commit wins, the second insert hits the exclusion
constraint), do NOT yield one success and one `ConflictOutcome`: the first
succeeds but the loser receives the fatal
`BadRequestException('Failed to create booking: ...')` instead of a
conflict result. -/
theorem concurrentDuplicate_loser_gets_fatal_error :
    createBooking emptyStore t0800 "S1" (mkIds "a") ⟨"R1", t0900, t1000, none⟩
      = .ok (⟨[⟨"S1", "R1", t0900, t1000, none⟩], [⟨"a0", some "S1", "R1", t0900, t1000, false⟩]⟩,
             .created "S1" "R1" t0900 t1000 none "Booking created successfully")
    ∧ createBooking ⟨[⟨"S1", "R1", t0900, t1000, none⟩],
                     [⟨"a0", some "S1", "R1", t0900, t1000, false⟩]⟩
        t0800 "S2" (mkIds "b") ⟨"R1", t0900, t1000, none⟩
      = .error (.badRequestException ("Failed to create booking: " ++ exclusionViolationMsg)) := by
  constructor
  · decide
  · decide

/-- Claim C4 (with the external `rrule` expansion modelled from the spec):
for every rule string whose parse yields a present count `n` (any
frequency, any positive effective interval), `parseRRule` produces exactly
`n` occurrences — the template start followed by its frequency × interval
steps — regardless of the parsed `until` value and of the moment `now`
(both universally quantified here), and `COUNT=0` yields the empty
sequence without an error. -/
theorem parseRRule_count_exact (s : String) (p : RecurrenceConfig) (n : Nat)
    (startDate endDate now : Int)
    (hp : parseRRuleParams (stripRRulePrefix s) = .ok p)
    (hc : p.count = some (some (n : Int)))
    (hi : 1 ≤ effInterval p.interval) :
    parseRRule s startDate endDate now
      = .ok ((List.range n).map (nthOccurrence p.freq (effInterval p.interval) startDate))
    ∧ ((List.range n).map (nthOccurrence p.freq (effInterval p.interval) startDate)).length = n
    ∧ (0 < n →
        ((List.range n).map (nthOccurrence p.freq (effInterval p.interval) startDate)).head?
          = some startDate) := by
  refine ⟨?_, by simp, ?_⟩
  · simp only [parseRRule, hp, Except.bind, bind]
    cases n with
    | zero =>
      cases hu : p.until? with
      | none =>
        simp [hu, hc, RRuleLib.betweenInc, jsNumFalsy, pure, Except.pure]
      | some u =>
        simp [hu, hc, RRuleLib.all, jsNumFalsy, pure, Except.pure]
    | succ m =>
      have h1 : ¬(((m : Int) + 1 = 0) ∧ p.until? = none) := by
        rintro ⟨h, -⟩
        omega
      have h2 : ¬(((m : Int) + 1 ≤ 0) ∨ effInterval p.interval ≤ 0) := by omega
      simp [hc, jsNumFalsy, h1, h2, RRuleLib.all, pure, Except.pure]
  · intro hn
    obtain ⟨m, rfl⟩ : ∃ m, n = m + 1 := ⟨n - 1, by omega⟩
    simp [List.range_succ_eq_map, nthOccurrence]

/-- Witness for C4: `RRULE:FREQ=WEEKLY;COUNT=10` from the Monday
2025-01-06T09:00Z template parses to a weekly count-10 configuration and
expands to exactly ten instants, the first equal to the template start and
each subsequent one exactly seven days after the previous. -/
theorem parseRRule_count_exact_witness :
    parseRRuleParams (stripRRulePrefix "RRULE:FREQ=WEEKLY;COUNT=10")
      = .ok { freq := .weekly, count := some (some 10) }
    ∧ ({ freq := .weekly, count := some (some 10) : RecurrenceConfig }).count
        = some (some ((10 : Nat) : Int))
    ∧ 1 ≤ effInterval ({ freq := .weekly, count := some (some 10) : RecurrenceConfig }).interval
    ∧ parseRRule "RRULE:FREQ=WEEKLY;COUNT=10" t0900 t1000 t0800
      = .ok ((List.range 10).map (nthOccurrence Freq.weekly
          (effInterval ({ freq := .weekly, count := some (some 10) : RecurrenceConfig }).interval)
          t0900))
    ∧ (List.range 10).map (nthOccurrence Freq.weekly 1 t0900)
      = [t0900, t0900 + 7 * 86400000, t0900 + 14 * 86400000, t0900 + 21 * 86400000,
         t0900 + 28 * 86400000, t0900 + 35 * 86400000, t0900 + 42 * 86400000,
         t0900 + 49 * 86400000, t0900 + 56 * 86400000, t0900 + 63 * 86400000] :=
  ⟨by decide, by decide, by decide,
   (parseRRule_count_exact "RRULE:FREQ=WEEKLY;COUNT=10"
      { freq := .weekly, count := some (some 10) } 10 t0900 t1000 t0800
      (by decide) (by decide) (by decide)).1,
   by decide⟩

/-- Weekly occurrences step by exactly `interval` weeks from the template
(closed form of `nthOccurrence` for the weekly frequency). -/
theorem nthOccurrence_weekly (i t : Int) (k : Nat) :
    nthOccurrence .weekly i t k = t + i * weekMs * k := by
  cases k with
  | zero => simp [nthOccurrence]
  | succ m =>
    simp only [nthOccurrence]
    push_cast
    ring

/-- Closed form of the weekly unbounded expansion window: exactly the
occurrences `dtstart + k · (interval · week)` for `k` up to the horizon
quotient. -/
theorem occurrencesInWindow_weekly (i dtstart hi : Int) (hI : 0 < i) (hge : dtstart ≤ hi) :
    occurrencesInWindow .weekly i dtstart dtstart hi
      = (List.range (((hi - dtstart) / (i * weekMs)).toNat + 1)).map
          (fun (k : Nat) => dtstart + i * weekMs * (k : Int)) := by
  have hcond : ¬(hi < dtstart ∨ i ≤ 0) := by omega
  have hw : (0 : Int) < weekMs := by norm_num [weekMs]
  rw [occurrencesInWindow, if_neg hcond]
  have hmap : (List.range (((hi - dtstart) / (i * weekMs)).toNat + 1)).map
      (nthOccurrence .weekly i dtstart)
      = (List.range (((hi - dtstart) / (i * weekMs)).toNat + 1)).map
          (fun (k : Nat) => dtstart + i * weekMs * (k : Int)) := by
    apply List.map_congr_left
    intro k _
    exact nthOccurrence_weekly i dtstart k
  rw [hmap]
  apply List.filter_eq_self.mpr
  intro x hx
  obtain ⟨k, -, rfl⟩ := List.mem_map.mp hx
  have h0 : (0 : Int) ≤ i * weekMs * (k : Int) :=
    mul_nonneg (mul_nonneg (le_of_lt hI) (le_of_lt hw)) (Int.natCast_nonneg k)
  simp
  omega

/-- Claim C5, amended: expanding an unbounded weekly rule at the moment
`T = now` yields a non-empty ascending sequence starting at `T` whose
elements lie in `[T, T+2y]` and whose last element lies within one step
(7 · interval days) at or below the two-year horizon `jsAddYears T 2` —
not in `[T+2y, T+3y)` as the claim states. -/
theorem parseRRule_unbounded_weekly_within_horizon (s : String) (p : RecurrenceConfig)
    (T dur : Int)
    (hp : parseRRuleParams (stripRRulePrefix s) = .ok p)
    (hf : p.freq = .weekly) (hc : p.count = none) (hu : p.until? = none)
    (hint : 0 < effInterval p.interval)
    (h2y : T ≤ jsAddYears T 2) :
    ∃ l, parseRRule s T (T + dur) T = .ok l ∧ l ≠ [] ∧ l.head? = some T ∧
      (∀ x ∈ l, T ≤ x ∧ x ≤ jsAddYears T 2) ∧
      ∃ lastOcc, l.getLast? = some lastOcc ∧
        jsAddYears T 2 - effInterval p.interval * weekMs < lastOcc ∧
        lastOcc ≤ jsAddYears T 2 := by
  have hw : (0 : Int) < weekMs := by norm_num [weekMs]
  have hs : 0 < effInterval p.interval * weekMs := mul_pos hint hw
  have hl : parseRRule s T (T + dur) T
      = .ok (occurrencesInWindow .weekly (effInterval p.interval) T T (jsAddYears T 2)) := by
    simp only [parseRRule, hp, Except.bind, bind]
    simp [hc, hu, jsNumFalsy, RRuleLib.betweenInc, hf, pure, Except.pure]
  rw [occurrencesInWindow_weekly _ _ _ hint h2y] at hl
  set i := effInterval p.interval with hidef
  set H := jsAddYears T 2 with hH
  set K : Nat := ((H - T) / (i * weekMs)).toNat with hKdef
  have hd : 0 ≤ H - T := by omega
  have hKint : (K : Int) = (H - T) / (i * weekMs) :=
    Int.toNat_of_nonneg (Int.ediv_nonneg hd (le_of_lt hs))
  have key := Int.ediv_add_emod (H - T) (i * weekMs)
  have hr0 : 0 ≤ (H - T) % (i * weekMs) := Int.emod_nonneg _ (by omega)
  have hr1 : (H - T) % (i * weekMs) < i * weekMs := Int.emod_lt_of_pos _ hs
  refine ⟨_, hl, by simp, ?_, ?_, ?_⟩
  · simp [List.range_succ_eq_map]
  · intro x hx
    obtain ⟨k, hk, rfl⟩ := List.mem_map.mp hx
    have hk' : k < K + 1 := List.mem_range.mp hk
    have h0 : (0 : Int) ≤ i * weekMs * (k : Int) :=
      mul_nonneg (le_of_lt hs) (Int.natCast_nonneg k)
    have h1 : i * weekMs * (k : Int) ≤ i * weekMs * (K : Int) := by
      apply mul_le_mul_of_nonneg_left _ (le_of_lt hs)
      exact_mod_cast Nat.lt_succ_iff.mp hk'
    constructor
    · omega
    · rw [hKint] at h1
      omega
  · refine ⟨T + i * weekMs * (K : Int), ?_, ?_, ?_⟩
    · simp [List.range_succ]
    · rw [hKint]
      omega
    · rw [hKint]
      omega


/-- Counterexample to C5 as stated: for `T` = 2025-01-06T09:00Z (equal to
the moment of expansion), the last element of the unbounded weekly
expansion is `T + 728` days, strictly below `T + 2` years (which is
`T + 730` days), hence not in the claimed interval `[T+2y, T+3y)`. -/
theorem parseRRule_unbounded_weekly_last_below_horizon :
    ((parseRRule "RRULE:FREQ=WEEKLY" t0900 t1000 t0900).toOption.bind List.getLast?)
      = some (t0900 + 728 * 86400000)
    ∧ jsAddYears t0900 2 = t0900 + 730 * 86400000
    ∧ t0900 + 728 * 86400000 < jsAddYears t0900 2 := by
  decide

/-- Witness for the amended C5 at `T` = 2025-01-06T09:00Z with the rule
string `RRULE:FREQ=WEEKLY`. -/
theorem parseRRule_unbounded_weekly_within_horizon_witness :
    parseRRuleParams (stripRRulePrefix "RRULE:FREQ=WEEKLY") = .ok { freq := .weekly }
    ∧ 0 < effInterval ({ freq := .weekly : RecurrenceConfig }).interval
    ∧ t0900 ≤ jsAddYears t0900 2
    ∧ (∃ l, parseRRule "RRULE:FREQ=WEEKLY" t0900 (t0900 + 3600000) t0900 = .ok l ∧ l ≠ [] ∧
        l.head? = some t0900 ∧
        (∀ x ∈ l, t0900 ≤ x ∧ x ≤ jsAddYears t0900 2) ∧
        ∃ lastOcc, l.getLast? = some lastOcc ∧
          jsAddYears t0900 2 - effInterval ({ freq := .weekly : RecurrenceConfig }).interval * weekMs < lastOcc ∧
          lastOcc ≤ jsAddYears t0900 2) :=
  ⟨by decide, by decide, by decide,
   parseRRule_unbounded_weekly_within_horizon "RRULE:FREQ=WEEKLY" { freq := .weekly }
     t0900 3600000 (by decide) rfl rfl rfl (by decide) (by decide)⟩

/-- Invariant of the hour-stepping loop: every accepted slot starts while
the guard `t < searchEnd` holds, for any fuel. -/
theorem searchSingleSlot_start_lt (st : Store) (now : Int) (rid : String) (searchEnd dur : Int)
    (m : Nat) :
    ∀ fuel t l, searchSingleSlot st now rid searchEnd dur m fuel t = .ok l →
      ∀ slot ∈ l, slot.start < searchEnd := by
  intro fuel
  induction fuel with
  | zero =>
    intro t l h slot hs
    simp only [searchSingleSlot, pure, Except.pure] at h
    cases h
    simp at hs
  | succ f ih =>
    intro t l h slot hs
    simp only [searchSingleSlot] at h
    split at h
    · rename_i hcond
      cases hconf : findConflictsForTimeRange st now rid t (t + dur) with
      | error e =>
        rw [hconf] at h
        simp [Except.bind, bind] at h
      | ok conflicts =>
        rw [hconf] at h
        simp only [Except.bind, bind] at h
        split at h
        · simp only [pure, Except.pure] at h
          cases h
          simp at hs
          subst hs
          exact hcond.1
        · exact ih (t + hourMs) l h slot hs
    · simp only [pure, Except.pure] at h
      cases h
      simp at hs

/-- Claim C6, amended: without a recurrence rule, every slot returned by
`findNextAvailableSlots` starts strictly before the 90-day horizon
`now + 90 days` (the hour-stepping search stops at the horizon even when
fewer than `maxSlots` slots were found).  With a recurrence rule the
horizon is not applied — see the counterexample below. -/
theorem findNextAvailableSlots_single_within_horizon (st : Store) (now : Int) (rid : String)
    (startTime dur : Int) (maxSlots : Nat) (l : List TimeSlot)
    (h : findNextAvailableSlots st now rid startTime dur none maxSlots = .ok l) :
    ∀ slot ∈ l, slot.start < now + 90 * dayMs := by
  simp only [findNextAvailableSlots, truthyRule] at h
  exact searchSingleSlot_start_lt st now rid (now + 90 * dayMs) dur maxSlots _ _ l h

/-- Witness for the amended C6: on an empty store the single-slot search
from 09:00 returns that very slot, and its start is below the horizon. -/
theorem findNextAvailableSlots_single_within_horizon_witness :
    findNextAvailableSlots emptyStore t0800 "R1" t0900 3600000 none 5
      = .ok [⟨t0900, t1000⟩]
    ∧ t0900 < t0800 + 90 * dayMs :=
  ⟨by decide,
   findNextAvailableSlots_single_within_horizon emptyStore t0800 "R1" t0900 3600000 5
     [⟨t0900, t1000⟩] (by decide) ⟨t0900, t1000⟩ (by decide)⟩

/-- Counterexample to C6 as stated: with the rule
`RRULE:FREQ=YEARLY;COUNT=3` on an empty store, the recurring branch tests
the expanded occurrences without consulting the 90-day search end, so the
second and third returned slots start one and two years after `now` —
far beyond 90 days. -/
theorem findNextAvailableSlots_recurring_ignores_horizon :
    findNextAvailableSlots emptyStore t0900 "R1" t0900 3600000
        (some "RRULE:FREQ=YEARLY;COUNT=3") 5
      = .ok [⟨t0900, t0900 + 3600000⟩,
             ⟨t0900 + 365 * 86400000, t0900 + 365 * 86400000 + 3600000⟩,
             ⟨t0900 + 730 * 86400000, t0900 + 730 * 86400000 + 3600000⟩]
    ∧ t0900 + 90 * dayMs < t0900 + 365 * 86400000 := by
  decide

/-- A failing `Except` bind fails either in its first or its second
stage. -/
theorem except_bind_error {α β : Type} (E : Except AppError α) (F : α → Except AppError β)
    (er : AppError) (h : E >>= F = .error er) :
    E = .error er ∨ ∃ a, E = .ok a ∧ F a = .error er := by
  cases E with
  | error e =>
    left
    simp only [bind, Except.bind] at h
    injection h with h'
    rw [h']
  | ok a =>
    right
    refine ⟨a, rfl, ?_⟩
    simp only [bind, Except.bind] at h
    exact h

/-- Every error thrown by `parseRRule` is the wrapped plain
`Invalid RRULE format` error, never an HTTP-shaped exception. -/
theorem parseRRule_error_jsError (s : String) (startDate endDate now : Int) (er : AppError)
    (h : parseRRule s startDate endDate now = .error er) : ∃ m, er = .jsError m := by
  simp only [parseRRule] at h
  split at h
  · cases h
  · cases h
    exact ⟨_, rfl⟩

/-- Errors escaping `generateRecurringInstances` come only from
`parseRRule`, hence are plain errors. -/
theorem generateRecurringInstances_error_jsError (sr : BookingSeriesRow)
    (startDate endDate now : Int) (er : AppError)
    (h : generateRecurringInstances sr startDate endDate now = .error er) :
    ∃ m, er = .jsError m := by
  cases hrr : sr.recurrence_rule with
  | none =>
    simp only [generateRecurringInstances, hrr] at h
    split at h <;> cases h
  | some r =>
    simp only [generateRecurringInstances, hrr] at h
    rcases except_bind_error _ _ _ h with h1 | ⟨a, -, h2⟩
    · exact parseRRule_error_jsError _ _ _ _ _ h1
    · simp [pure, Except.pure] at h2

/-- Error shape is preserved through `List.mapM` (stated on its loop). -/
theorem mapM_loop_error_jsError {α β : Type} (f : α → Except AppError β)
    (hf : ∀ a er, f a = .error er → ∃ m, er = .jsError m) :
    ∀ (l : List α) (acc : List β) (er : AppError),
      List.mapM.loop f l acc = .error er → ∃ m, er = .jsError m := by
  intro l
  induction l with
  | nil =>
    intro acc er h
    simp [List.mapM.loop, pure, Except.pure] at h
  | cons a rest ih =>
    intro acc er h
    simp only [List.mapM.loop] at h
    rcases except_bind_error _ _ _ h with h1 | ⟨b, -, h2⟩
    · exact hf a er h1
    · exact ih _ er h2

/-- Every error of `findBookedSlots` is a plain error (an infinite-series
rule that fails to parse), never a `BadRequestException`. -/
theorem findBookedSlots_error_jsError (st : Store) (now : Int) (rid : String)
    (startDate endDate : Int) (er : AppError)
    (h : findBookedSlots st now rid startDate endDate = .error er) : ∃ m, er = .jsError m := by
  simp only [findBookedSlots, List.mapM] at h
  rcases except_bind_error _ _ _ h with h1 | ⟨a, -, h2⟩
  · refine mapM_loop_error_jsError _ ?_ _ _ _ h1
    intro a er' ha
    rcases except_bind_error _ _ _ ha with hg | ⟨g, -, hp⟩
    · exact generateRecurringInstances_error_jsError _ _ _ _ _ hg
    · simp [pure, Except.pure] at hp
  · simp [pure, Except.pure] at h2

/-- Claim C8: `getAvailability` fails with the InvalidRange
`BadRequestException` exactly when `rangeStart ≥ rangeEnd`; with a valid
range and zero busy slots it returns the single free interval equal to the
full range; with exactly one busy slot strictly inside the range it
returns exactly the two free intervals bounded at the busy slot's
edges. -/
theorem getAvailability_range_and_gaps (st : Store) (now : Int) (rid : String)
    (rangeStart rangeEnd : Int) :
    (getAvailability st now rid rangeStart rangeEnd
        = .error (.badRequestException "start_date must be before end_date")
      ↔ rangeStart ≥ rangeEnd)
    ∧ (rangeStart < rangeEnd →
        findBookedSlots st now rid rangeStart rangeEnd = .ok [] →
        getAvailability st now rid rangeStart rangeEnd
          = .ok ⟨rid, rangeStart, rangeEnd, [⟨rangeStart, rangeEnd⟩]⟩)
    ∧ (∀ b : TimeSlot, rangeStart < rangeEnd →
        findBookedSlots st now rid rangeStart rangeEnd = .ok [b] →
        rangeStart < b.start → b.end_ < rangeEnd →
        getAvailability st now rid rangeStart rangeEnd
          = .ok ⟨rid, rangeStart, rangeEnd, [⟨rangeStart, b.start⟩, ⟨b.end_, rangeEnd⟩]⟩) := by
  refine ⟨⟨?_, ?_⟩, ?_, ?_⟩
  · intro h
    by_contra hlt
    simp only [getAvailability] at h
    rw [if_neg (by omega)] at h
    rcases except_bind_error _ _ _ h with h1 | ⟨a, -, h2⟩
    · obtain ⟨m, hm⟩ := findBookedSlots_error_jsError _ _ _ _ _ _ h1
      cases hm
    · simp [pure, Except.pure] at h2
  · intro h
    simp only [getAvailability]
    rw [if_pos (by omega)]
  · intro hlt hb
    simp only [getAvailability]
    rw [if_neg (by omega), hb]
    simp [Except.bind, bind, pure, Except.pure, calculateAvailableSlots]
  · intro b hlt hb h1 h2
    simp only [getAvailability]
    rw [if_neg (by omega), hb]
    simp only [Except.bind, bind, pure, Except.pure, calculateAvailableSlots,
      List.getLast_singleton]
    rw [if_pos (by omega), if_pos (by omega)]
    simp


/-- Witness for C8: the one-busy-slot store (09:00–10:00 inside
08:00–11:00) yields exactly the two flanking free intervals, the empty
store yields the full range, and an inverted range yields the InvalidRange
error. -/
theorem getAvailability_range_and_gaps_witness :
    findBookedSlots storeOneBooking t0800 "R1" t0800 (t1000 + 3600000) = .ok [⟨t0900, t1000⟩]
    ∧ getAvailability storeOneBooking t0800 "R1" t0800 (t1000 + 3600000)
        = .ok ⟨"R1", t0800, t1000 + 3600000, [⟨t0800, t0900⟩, ⟨t1000, t1000 + 3600000⟩]⟩
    ∧ findBookedSlots emptyStore t0800 "R1" t0800 t1000 = .ok []
    ∧ getAvailability emptyStore t0800 "R1" t0800 t1000
        = .ok ⟨"R1", t0800, t1000, [⟨t0800, t1000⟩]⟩
    ∧ getAvailability storeOneBooking t0800 "R1" t1000 t0900
        = .error (.badRequestException "start_date must be before end_date") :=
  ⟨by decide,
   (getAvailability_range_and_gaps storeOneBooking t0800 "R1" t0800 (t1000 + 3600000)).2.2
     ⟨t0900, t1000⟩ (by decide) (by decide) (by decide) (by decide),
   by decide,
   (getAvailability_range_and_gaps emptyStore t0800 "R1" t0800 t1000).2.1
     (by decide) (by decide),
   (getAvailability_range_and_gaps storeOneBooking t0800 "R1" t1000 t0900).1.mpr (by decide)⟩

/-- Number of exception rows of a series whose start lies in the calendar
day of `d`. -/
def exceptionRowsOnDay (st : Store) (seriesId : String) (d : Int) : Nat :=
  (st.instanceRows.filter (fun i => decide
    (i.series_id = some seriesId ∧ startOfDayUTC d ≤ i.start_time ∧
     i.start_time ≤ endOfDayUTC d ∧ i.is_exception = true))).length

/-- Counterexample to C9 as stated: cancelling the same series and date
twice DOES produce two exception rows for that day.  The first call flips
the materialized instance `I1` in place, but the second call's lookup
filters on `is_exception = false`, misses the already-flipped row, and
synthesizes a fresh exception row `X2`. -/
theorem cancelException_double_cancel_two_exception_rows :
    cancelException storeOneBooking "X1" "S1" t0900
      = .ok (⟨[⟨"S1", "R1", t0900, t1000, none⟩],
              [⟨"I1", some "S1", "R1", t0900, t1000, true⟩]⟩,
             ⟨"I1", some "S1", "R1", t0900, t1000, true⟩)
    ∧ cancelException ⟨[⟨"S1", "R1", t0900, t1000, none⟩],
                       [⟨"I1", some "S1", "R1", t0900, t1000, true⟩]⟩ "X2" "S1" t0900
      = .ok (⟨[⟨"S1", "R1", t0900, t1000, none⟩],
              [⟨"I1", some "S1", "R1", t0900, t1000, true⟩,
               ⟨"X2", some "S1", "R1", t0900, t1000, true⟩]⟩,
             ⟨"X2", some "S1", "R1", t0900, t1000, true⟩)
    ∧ exceptionRowsOnDay ⟨[⟨"S1", "R1", t0900, t1000, none⟩],
                          [⟨"I1", some "S1", "R1", t0900, t1000, true⟩,
                           ⟨"X2", some "S1", "R1", t0900, t1000, true⟩]⟩ "S1" t0900 = 2 := by
  decide

/-- Claim C9, amended: an exception row is created only when no
materialized NON-exception instance exists for that calendar day.  When
one exists, it is flipped in place (`is_exception := true`) and the table
gains no row; otherwise a new exception row is synthesized and appended —
so a repeated cancellation of the same date (whose instance is then
already an exception) appends a second exception row. -/
theorem cancelException_flip_or_synthesize (st : Store) (newId seriesId : String)
    (instanceDate : Int) (series : BookingSeriesRow)
    (hs : st.seriesRows.find? (fun sr => decide (sr.id = seriesId)) = some series) :
    (∀ inst, findNonExceptionOnDay st seriesId instanceDate = some inst →
      cancelException st newId seriesId instanceDate
        = .ok (⟨st.seriesRows,
                st.instanceRows.map (fun i =>
                  if i.id = inst.id then { inst with is_exception := true } else i)⟩,
               { inst with is_exception := true })
      ∧ (st.instanceRows.map (fun i =>
           if i.id = inst.id then { inst with is_exception := true } else i)).length
          = st.instanceRows.length)
    ∧ (findNonExceptionOnDay st seriesId instanceDate = none →
        cancelException st newId seriesId instanceDate
          = .ok (⟨st.seriesRows,
                  st.instanceRows
                    ++ [⟨newId, some seriesId, series.resource_id,
                         synthesizedStart instanceDate series.start_time,
                         synthesizedStart instanceDate series.start_time
                           + (series.end_time - series.start_time), true⟩]⟩,
                 ⟨newId, some seriesId, series.resource_id,
                  synthesizedStart instanceDate series.start_time,
                  synthesizedStart instanceDate series.start_time
                    + (series.end_time - series.start_time), true⟩)) := by
  constructor
  · intro inst hfind
    constructor
    · simp only [cancelException, hs, hfind]
    · simp
  · intro hfind
    simp only [cancelException, hs, hfind]

/-- Witness for the amended C9: the flip-in-place case on the
one-booking store and the synthesize case on a store holding only an
unbounded series with no materialized instances. -/
theorem cancelException_flip_or_synthesize_witness :
    storeOneBooking.seriesRows.find? (fun sr => decide (sr.id = "S1"))
      = some ⟨"S1", "R1", t0900, t1000, none⟩
    ∧ findNonExceptionOnDay storeOneBooking "S1" t0900
      = some ⟨"I1", some "S1", "R1", t0900, t1000, false⟩
    ∧ cancelException storeOneBooking "X1" "S1" t0900
      = .ok (⟨storeOneBooking.seriesRows,
              storeOneBooking.instanceRows.map (fun i =>
                if i.id = "I1" then
                  { (⟨"I1", some "S1", "R1", t0900, t1000, false⟩ : BookingInstanceRow) with
                    is_exception := true }
                else i)⟩,
             { (⟨"I1", some "S1", "R1", t0900, t1000, false⟩ : BookingInstanceRow) with
               is_exception := true })
    ∧ findNonExceptionOnDay ⟨[⟨"S1", "R1", t0900, t1000, some "RRULE:FREQ=WEEKLY"⟩], []⟩
        "S1" t0900 = none
    ∧ cancelException ⟨[⟨"S1", "R1", t0900, t1000, some "RRULE:FREQ=WEEKLY"⟩], []⟩
        "X1" "S1" t0900
      = .ok (⟨[⟨"S1", "R1", t0900, t1000, some "RRULE:FREQ=WEEKLY"⟩],
              [⟨"X1", some "S1", "R1",
                synthesizedStart t0900 t0900,
                synthesizedStart t0900 t0900 + (t1000 - t0900), true⟩]⟩,
             ⟨"X1", some "S1", "R1",
              synthesizedStart t0900 t0900,
              synthesizedStart t0900 t0900 + (t1000 - t0900), true⟩) :=
  ⟨by decide, by decide,
   ((cancelException_flip_or_synthesize storeOneBooking "X1" "S1" t0900
       ⟨"S1", "R1", t0900, t1000, none⟩ (by decide)).1
     ⟨"I1", some "S1", "R1", t0900, t1000, false⟩ (by decide)).1,
   by decide,
   (cancelException_flip_or_synthesize ⟨[⟨"S1", "R1", t0900, t1000, some "RRULE:FREQ=WEEKLY"⟩], []⟩
       "X1" "S1" t0900 ⟨"S1", "R1", t0900, t1000, some "RRULE:FREQ=WEEKLY"⟩ (by decide)).2
     (by decide)⟩

end MeetingsBooking
